import Mathlib

/-!
# ConvoSplit — a shallow embedding of `src/main.py`

This file embeds the lifecycle core of the ConvoSplit bot (`src/main.py`):

* the access-scope (permission-overwrite) computation of `create_channel`
  (lines 124–145) and the locked scope applied by `split` (lines 304–312);
* the termination predicate `is_goodbye` (lines 178–180) and the
  termination watcher `await_end` (lines 182–196);
* the archive serialisation `format_message` (lines 198–227) and
  `save_messages` (lines 229–246);
* the conclusion sequence `conclude` (lines 248–275) and the tail of
  `split` (lines 303–314), embedded as the trace of effects it performs.

Python dicts of permission overwrites become insertion-ordered association
lists; datetimes become whole-second counts; network sends that may raise
`discord.Forbidden` become boolean outcome flags of an environment record;
the file written by `save_messages` becomes the string of its contents.
-/

set_option autoImplicit false

namespace ConvoSplit

/-! ## Principals and permission overwrites -/

/-- A principal a permission overwrite can target: a guild member or a role
(including the default `@everyone` role).  Discord members and roles are
distinct object kinds, so a member is never equal to a role. -/
inductive Principal where
  | member (id : Nat)
  | role (id : Nat)
deriving DecidableEq

/-- `discord.PermissionOverwrite`, restricted to the five flags the program
ever sets (lines 55–58, 129–130, 141–145, 307–308).  Each flag is
tri-state: `none` means "inherit" (Python `None`). -/
structure PermissionOverwrite where
  read_messages : Option Bool := none
  read_message_history : Option Bool := none
  send_messages : Option Bool := none
  manage_permissions : Option Bool := none
  embed_links : Option Bool := none
deriving DecidableEq

/-- A Python dict of overwrites: an insertion-ordered association list.
The operations below maintain Python-dict semantics (update an existing
key in place, else append at the end). -/
abbrev Overwrites := List (Principal × PermissionOverwrite)

/-- `d[k]`, as an `Option`. -/
def dictGet (d : Overwrites) (k : Principal) : Option PermissionOverwrite :=
  (d.find? (fun kv => kv.1 == k)).map (fun kv => kv.2)

/-- `d[k] = v`: replace the value at an existing key, else append. -/
def dictSet (d : Overwrites) (k : Principal) (v : PermissionOverwrite) :
    Overwrites :=
  if (dictGet d k).isSome then
    d.map (fun kv => if kv.1 == k then (k, v) else kv)
  else d ++ [(k, v)]

/-- `d.setdefault(k, v)`: insert `v` at `k` only if `k` is absent. -/
def dictSetdefault (d : Overwrites) (k : Principal) (v : PermissionOverwrite) :
    Overwrites :=
  if (dictGet d k).isSome then d else d ++ [(k, v)]

/-- `MY_PERMS` (lines 55–58): the bot's full-control overwrite. -/
def MY_PERMS : PermissionOverwrite :=
  { read_messages := some true, read_message_history := some true,
    send_messages := some true, manage_permissions := some true,
    embed_links := some true }

/-- `discord.PermissionOverwrite(read_messages=True, send_messages=True)`,
used for the default role (lines 129–130), each listed member
(lines 141–142) and the invoker (lines 144–145). -/
def readSendOverwrite : PermissionOverwrite :=
  { read_messages := some true, send_messages := some true }

/-- The mutation loop of lines 135–138: every entry except the bot's has
its `send_messages` flag forced to `False`.  (The source guards with
`user_or_role is ctx.me`, an identity test; `discord.py` caches the
member object, so identity coincides with equality of principals.) -/
def forceNoSend (me : Principal) (d : Overwrites) : Overwrites :=
  d.map (fun kv => if kv.1 == me then kv
                   else (kv.1, { kv.2 with send_messages := some false }))

/-- The loop of lines 140–142: grant read+send to each listed member. -/
def grantMembers (d : Overwrites) (members : List Principal) : Overwrites :=
  members.foldl (fun acc m => dictSet acc m readSendOverwrite) d

/-- The overwrite map computed by `create_channel` (lines 124–145) from
the originating channel's overwrites `base`, the bot `me`, the guild's
default role, the invoking `author` and the optional member list. -/
def create_overwrites (base : Overwrites) (me defaultRole author : Principal)
    (members : List Principal) : Overwrites :=
  let ow := dictSet base me MY_PERMS
  let ow := dictSetdefault ow defaultRole readSendOverwrite
  if members.isEmpty then ow
  else dictSet (grantMembers (forceNoSend me ow) members) author
    readSendOverwrite

/-- The locked overwrite map applied by `split` once the conversation is
over (lines 305–311): the default role loses read and send, the bot keeps
`MY_PERMS`. -/
def locked_overwrites (defaultRole me : Principal) : Overwrites :=
  [(defaultRole, { read_messages := some false, send_messages := some false }),
   (me, MY_PERMS)]

/-! ## Messages and the termination predicate -/

/-- One reaction on a message: its string form (`str(r)`, line 215) and
the fetched reacting users as (string form, id) pairs (lines 212–214). -/
structure Reaction where
  emojiStr : String
  users : List (String × Nat)
deriving DecidableEq

/-- One attachment descriptor (lines 216–219). -/
structure Attachment where
  filename : String
  content_type : Option String
  url : String
deriving DecidableEq

/-- A captured `discord.Message`, with exactly the fields `main.py` reads.
Timestamps are carried in their already-ISO-formatted string form and
embeds in their already-JSON-serialised form, since the program only ever
interpolates them into the archive text. -/
structure Message where
  id : Nat := 0
  channelId : Nat := 0
  authorStr : String := ""
  authorId : Nat := 0
  createdAtIso : String := ""
  editedAtIso : Option String := none
  referenceId : Option Nat := none
  isPinsAdd : Bool := false
  reactions : List Reaction := []
  attachments : List Attachment := []
  embedsJson : List String := []
  isSystem : Bool := false
  systemContent : String := ""
  content : String := ""
deriving DecidableEq

/-- `is_goodbye` (lines 178–180):
`content.lstrip().casefold().startswith('goodbye')`.
Python `lstrip` is modelled by dropping leading whitespace characters and
`casefold` by per-character lower-casing; the two coincide with Python on
the ASCII texts the program compares against. -/
def is_goodbye (content : String) : Bool :=
  "goodbye".data.isPrefixOf
    ((content.data.dropWhile Char.isWhitespace).map Char.toLower)

/-- The shared filter of lines 195 and 241:
`msg.author.id == client.user.id and is_goodbye(msg.content)`. -/
def is_bot_goodbye (botId : Nat) (m : Message) : Bool :=
  m.authorId == botId && is_goodbye m.content

/-! ## Termination watcher -/

/-- The two resolutions of the watcher: inactivity timeout, or the
explicit in-channel termination signal. -/
inductive EndReason where
  | timeout
  | explicitSignal
deriving DecidableEq

/-- The `'Goodbye.'` message the bot sends into the channel on timeout
(line 193). -/
def goodbyeMessage (chanId botId : Nat) : Message :=
  { channelId := chanId, authorId := botId, content := "Goodbye." }

/-- The loop of `await_end` (lines 187–196).  The environment is the
stream of inbound messages as (delay, message) pairs, the delay being the
whole seconds since the previous arrival (or since the wait began).
`remaining` is the time left on the current `wait_for`; a message in
another channel does not re-arm it (the `check` of line 190 filters it out
inside the same `wait_for`), while a non-matching message in the watched
channel restarts the wait with the full `timeoutSecs`.  The result is the
resolution reason together with the messages the watcher itself sent. -/
def await_end_go (chanId botId timeoutSecs : Nat) :
    Nat → List (Nat × Message) → EndReason × List Message
  | _, [] => (.timeout, [goodbyeMessage chanId botId])
  | remaining, (d, m) :: rest =>
    if remaining ≤ d then (.timeout, [goodbyeMessage chanId botId])
    else if m.channelId == chanId then
      if is_bot_goodbye botId m then (.explicitSignal, [])
      else await_end_go chanId botId timeoutSecs timeoutSecs rest
    else await_end_go chanId botId timeoutSecs (remaining - d) rest

/-- `await_end` (lines 182–196): the timeout argument is in minutes and is
multiplied by 60 (line 191). -/
def await_end (chanId botId timeoutMinutes : Nat)
    (events : List (Nat × Message)) : EndReason × List Message :=
  await_end_go chanId botId (timeoutMinutes * 60) (timeoutMinutes * 60) events

/-! ## Archive writer -/

/-- `SEPARATOR` (line 53). -/
def SEPARATOR : String :=
  "--New Message Starts After Two Line Feeds After This Line"

/-- The `content_type` field of an attachment line:
`f.content_type or 'Unspecified'` (line 218); Python treats both `None`
and the empty string as falsy. -/
def content_type_text (ct : Option String) : String :=
  match ct with
  | none => "Unspecified"
  | some s => if s = "" then "Unspecified" else s

/-- One `Attachment:` line (lines 216–219). -/
def attachment_line (f : Attachment) : String :=
  "Attachment: name=" ++ f.filename ++ ", content_type=" ++
    content_type_text f.content_type ++ ", url=" ++ f.url

/-- One `Reaction:` line (lines 211–215). -/
def reaction_line (r : Reaction) : String :=
  "Reaction: " ++ r.emojiStr ++ "; " ++
    String.intercalate ", "
      (r.users.map (fun u => u.1 ++ " (" ++ toString u.2 ++ ")"))

/-- `format_message` (lines 198–227): the multipart-like record body. -/
def format_message (msg : Message) : String :=
  let lines : List String :=
    ["Message-Id: " ++ toString msg.id,
     "Author: " ++ msg.authorStr ++ " (" ++ toString msg.authorId ++ ")",
     "Sent: " ++ msg.createdAtIso]
  let lines := lines ++ (match msg.editedAtIso with
    | some e => ["Edited: " ++ e]
    | none => [])
  let lines := lines ++ (match msg.referenceId with
    | some rid =>
        [(if msg.isPinsAdd then "Pins: " else "Reply-To: ") ++ toString rid]
    | none => [])
  let lines := lines ++ msg.reactions.map reaction_line
  let lines := lines ++ msg.attachments.map attachment_line
  let lines := lines ++ msg.embedsJson.map (fun e => "Embed: " ++ e)
  let lines := lines ++ [""]
  let lines := lines ++ [if msg.isSystem then msg.systemContent else msg.content]
  String.intercalate "\n" lines

/-- One record as written by line 243–244: the separator line, the
formatted message, and a trailing newline. -/
def message_record (m : Message) : String :=
  SEPARATOR ++ "\n" ++ format_message m ++ "\n"

/-- The file contents written by `save_messages` (lines 239–245) over the
channel history in oldest-first order: one record per message that is not
the bot's own termination signal (line 241), then the terminator line
(line 245).  (The deterministic filename of lines 234–238 is not modelled;
no claim concerns it.) -/
def save_messages_content (botId : Nat) (history : List Message) : String :=
  String.join (history.filterMap (fun m =>
    if is_bot_goodbye botId m then none else some (message_record m)))
  ++ (SEPARATOR ++ "--\n")

/-- The messages of a history that are not the synthetic termination
signal — those `save_messages` serialises. -/
def genuine_messages (botId : Nat) (history : List Message) : List Message :=
  history.filter (fun m => !is_bot_goodbye botId m)

/-! ## Conclusion sequence -/

/-- The observable effects of the tail of `split` and of `conclude`. -/
inductive Ev where
  | lockChannel
  | saveMessages
  | deleteChannel
  | destSendOk
  | destSendForbidden
  | webhookSendOk
  | webhookSendFail
  | ctxSendOk
  | ctxSendForbidden
  | unlink
deriving DecidableEq

/-- The environment a run of `conclude` faces: whether a `dest_channel`
was supplied, which of the three sends fail, and the elapsed whole seconds
`datetime.utcnow() - start`. -/
structure ConcludeEnv where
  hasDest : Bool
  destForbidden : Bool
  webhookFails : Bool
  ctxForbidden : Bool
  elapsedSeconds : Nat
deriving DecidableEq

/-- Python `timedelta.seconds` for a non-negative duration: the seconds
component after whole days are removed — NOT the total number of seconds.
Line 268 compares this component, not `total_seconds()`. -/
def timedelta_seconds (totalSeconds : Nat) : Nat := totalSeconds % 86400

/-- Lines 268–275 of `conclude`: the fallback after the preferred
destination is unavailable.  The webhook send of line 269 is not wrapped
in any `try`, so its failure aborts `conclude` before the `os.unlink` of
line 275; the `ctx.send` of line 272 only has `discord.Forbidden`
swallowed (line 273–274).  Returns the emitted events and whether
`conclude` returned normally. -/
def conclude_fallback (env : ConcludeEnv) (pre : List Ev) : List Ev × Bool :=
  if timedelta_seconds env.elapsedSeconds < 10 * 60 then
    if env.webhookFails then (pre ++ [Ev.webhookSendFail], false)
    else (pre ++ [Ev.webhookSendOk, Ev.unlink], true)
  else
    if env.ctxForbidden then (pre ++ [Ev.ctxSendForbidden, Ev.unlink], true)
    else (pre ++ [Ev.ctxSendOk, Ev.unlink], true)

/-- `conclude` (lines 248–275) as the trace of its effects: it deletes the
channel first (line 256), then tries the preferred destination if one was
supplied (lines 259–267, unlinking and returning on success), and
otherwise cascades through `conclude_fallback`. -/
def conclude_trace (env : ConcludeEnv) : List Ev × Bool :=
  if env.hasDest then
    if env.destForbidden then
      conclude_fallback env [Ev.deleteChannel, Ev.destSendForbidden]
    else ([Ev.deleteChannel, Ev.destSendOk, Ev.unlink], true)
  else conclude_fallback env [Ev.deleteChannel]

/-- The tail of `split` after the watcher resolves (lines 303–314): lock
the channel, save the messages, then `conclude`. -/
def split_conclusion_trace (env : ConcludeEnv) : List Ev × Bool :=
  ([Ev.lockChannel, Ev.saveMessages] ++ (conclude_trace env).1,
   (conclude_trace env).2)

/-! ## Channel deletion -/

/-- The platform error raised by deleting a channel that no longer
exists (`discord.NotFound`). -/
inductive DeleteError where
  | notFound
deriving DecidableEq

/-- The deletion step of `conclude` (line 256): a bare `channel.delete`
with no exception handler, so deleting an existing channel succeeds
(returning the channel's new existence state, `false`), while the
platform's not-found error on an already-deleted channel propagates out of
`conclude` uncaught. -/
def conclude_delete (channelExists : Bool) : Except DeleteError Bool :=
  if channelExists then Except.ok false
  else Except.error DeleteError.notFound

/-- Invoking the deletion step twice in a row, the second time on the
existence state left by the first. -/
def delete_twice : Except DeleteError Bool :=
  match conclude_delete true with
  | Except.ok stillExists => conclude_delete stillExists
  | Except.error e => Except.error e

/-! ## Dictionary lemmas -/

theorem dictGet_nil (k : Principal) : dictGet [] k = none := rfl

theorem dictGet_cons (a : Principal) (b : PermissionOverwrite) (t : Overwrites)
    (k : Principal) :
    dictGet ((a, b) :: t) k = if a = k then some b else dictGet t k := by
  by_cases h : a = k <;> simp [dictGet, List.find?_cons, h]

theorem dictGet_append_of_isSome (d₁ d₂ : Overwrites) (k : Principal)
    (h : (dictGet d₁ k).isSome) : dictGet (d₁ ++ d₂) k = dictGet d₁ k := by
  induction d₁ with
  | nil => simp [dictGet_nil] at h
  | cons hd t ih =>
    obtain ⟨a, b⟩ := hd
    by_cases hak : a = k
    · simp [dictGet_cons, hak]
    · rw [List.cons_append, dictGet_cons, if_neg hak, dictGet_cons, if_neg hak]
      exact ih (by rwa [dictGet_cons, if_neg hak] at h)

theorem dictGet_append_of_none (d₁ d₂ : Overwrites) (k : Principal)
    (h : dictGet d₁ k = none) : dictGet (d₁ ++ d₂) k = dictGet d₂ k := by
  induction d₁ with
  | nil => simp
  | cons hd t ih =>
    obtain ⟨a, b⟩ := hd
    rw [dictGet_cons] at h
    by_cases hak : a = k
    · rw [if_pos hak] at h; exact absurd h (by simp)
    · rw [if_neg hak] at h
      rw [List.cons_append, dictGet_cons, if_neg hak]
      exact ih h

theorem dictGet_singleton (k : Principal) (v : PermissionOverwrite)
    (k' : Principal) :
    dictGet [(k, v)] k' = if k = k' then some v else none := dictGet_cons k v [] k'

theorem dictGet_map_update (d : Overwrites) (k : Principal)
    (v : PermissionOverwrite) (k' : Principal) :
    dictGet (d.map (fun kv => if kv.1 == k then (k, v) else kv)) k' =
      if k' = k then (dictGet d k).map (fun _ => v) else dictGet d k' := by
  induction d with
  | nil => by_cases h : k' = k <;> simp [dictGet_nil, h]
  | cons hd t ih =>
    obtain ⟨a, b⟩ := hd
    rw [List.map_cons]
    by_cases hak : a = k <;> by_cases hk : k' = k <;> by_cases hak' : a = k' <;>
      simp_all [dictGet_cons]

theorem dictGet_dictSet (d : Overwrites) (k : Principal)
    (v : PermissionOverwrite) (k' : Principal) :
    dictGet (dictSet d k v) k' = if k' = k then some v else dictGet d k' := by
  unfold dictSet
  by_cases hp : (dictGet d k).isSome
  · obtain ⟨w, hw⟩ := Option.isSome_iff_exists.mp hp
    rw [if_pos hp, dictGet_map_update]
    by_cases hk : k' = k <;> simp [hk, hw]
  · have hn : dictGet d k = none := Option.not_isSome_iff_eq_none.mp hp
    rw [if_neg hp]
    by_cases hk : k' = k
    · subst hk
      rw [dictGet_append_of_none d _ k' hn, dictGet_singleton]
      simp
    · cases hs : dictGet d k' with
      | some w =>
        rw [dictGet_append_of_isSome d _ k' (by simp [hs]), hs, if_neg hk]
      | none =>
        rw [dictGet_append_of_none d _ k' hs, dictGet_singleton]
        simp [hk, Ne.symm hk]

theorem dictGet_dictSetdefault (d : Overwrites) (k : Principal)
    (v : PermissionOverwrite) (k' : Principal) :
    dictGet (dictSetdefault d k v) k' =
      if k' = k then some ((dictGet d k).getD v) else dictGet d k' := by
  unfold dictSetdefault
  by_cases hp : (dictGet d k).isSome
  · obtain ⟨w, hw⟩ := Option.isSome_iff_exists.mp hp
    rw [if_pos hp]
    by_cases hk : k' = k <;> simp [hk, hw]
  · have hn : dictGet d k = none := Option.not_isSome_iff_eq_none.mp hp
    rw [if_neg hp]
    by_cases hk : k' = k
    · subst hk
      rw [dictGet_append_of_none d _ k' hn, dictGet_singleton]
      simp [hn]
    · cases hs : dictGet d k' with
      | some w =>
        rw [dictGet_append_of_isSome d _ k' (by simp [hs]), hs, if_neg hk]
      | none =>
        rw [dictGet_append_of_none d _ k' hs, dictGet_singleton]
        simp [hk, Ne.symm hk]

theorem dictGet_forceNoSend (me : Principal) (d : Overwrites) (k : Principal) :
    dictGet (forceNoSend me d) k =
      if k = me then dictGet d me
      else (dictGet d k).map
        (fun ow => { ow with send_messages := some false }) := by
  induction d with
  | nil => by_cases h : k = me <;> simp [forceNoSend, dictGet_nil, h]
  | cons hd t ih =>
    obtain ⟨a, b⟩ := hd
    unfold forceNoSend at ih ⊢
    rw [List.map_cons]
    by_cases ham : a = me <;> by_cases hk : k = me <;> by_cases hak : a = k <;>
      simp_all [dictGet_cons]

theorem dictGet_grantMembers (members : List Principal) :
    ∀ (d : Overwrites) (k : Principal),
      dictGet (grantMembers d members) k =
        if k ∈ members then some readSendOverwrite else dictGet d k := by
  induction members with
  | nil => intro d k; simp [grantMembers]
  | cons m ms ih =>
    intro d k
    have hstep : grantMembers d (m :: ms) =
        grantMembers (dictSet d m readSendOverwrite) ms := rfl
    rw [hstep, ih]
    by_cases hms : k ∈ ms
    · simp [hms]
    · rw [if_neg hms, dictGet_dictSet]
      by_cases hkm : k = m <;> simp [hkm, hms]

/-- The scope after the unconditional steps of lines 126–130 (mirror the
originating overwrites, install `MY_PERMS` for the bot, default the
`@everyone` entry): pointwise description. -/
theorem dictGet_pre_scope (base : Overwrites) (me dr : Principal)
    (k : Principal) :
    dictGet (dictSetdefault (dictSet base me MY_PERMS) dr readSendOverwrite) k =
      if k = me then some MY_PERMS
      else if k = dr then some ((dictGet base dr).getD readSendOverwrite)
      else dictGet base k := by
  rw [dictGet_dictSetdefault]
  by_cases hk : k = me
  · subst hk
    by_cases hd : k = dr
    · rw [if_pos hd, if_pos rfl, ← hd, dictGet_dictSet, if_pos rfl]; rfl
    · rw [if_neg hd, dictGet_dictSet, if_pos rfl, if_pos rfl]
  · rw [if_neg hk]
    by_cases hd : k = dr
    · rw [if_pos hd, if_pos hd, ← hd, dictGet_dictSet,
        if_neg (fun h => hk h)]
    · rw [if_neg hd, if_neg hd, dictGet_dictSet, if_neg hk]

/-- Pointwise description of the scope `create_channel` computes when the
member list is non-empty (lines 131–145). -/
theorem dictGet_create_overwrites_nonempty (base : Overwrites)
    (me dr author : Principal) (members : List Principal)
    (h : members ≠ []) (k : Principal) :
    dictGet (create_overwrites base me dr author members) k =
      if k = author then some readSendOverwrite
      else if k ∈ members then some readSendOverwrite
      else if k = me then some MY_PERMS
      else (dictGet
          (dictSetdefault (dictSet base me MY_PERMS) dr readSendOverwrite) k).map
        (fun ow => { ow with send_messages := some false }) := by
  have hne : members.isEmpty = false := by
    cases members with
    | nil => exact absurd rfl h
    | cons a t => rfl
  simp only [create_overwrites, hne, Bool.false_eq_true, if_false]
  rw [dictGet_dictSet, dictGet_grantMembers, dictGet_forceNoSend]
  by_cases ha : k = author
  · rw [if_pos ha, if_pos ha]
  · rw [if_neg ha, if_neg ha]
    by_cases hm : k ∈ members
    · rw [if_pos hm, if_pos hm]
    · rw [if_neg hm, if_neg hm]
      by_cases hme : k = me
      · rw [if_pos hme, if_pos hme, dictGet_pre_scope, if_pos rfl]
      · rw [if_neg hme, if_neg hme]

/-! ## Access-scope theorems (C1, C8, C9) -/

/-- C1: for every conversation request with a non-empty restricted-participant
list (1 to 5 members), the Access Scope computed from the originating
channel's overwrite map grants send-permission to exactly the set
{listed participants} ∪ {initiating participant} ∪ {bot}, and every other
principal present in the originating overwrite map has send-permission
forced to `false`. -/
theorem restricted_scope_send_exactly (base : Overwrites)
    (me dr author : Principal) (members : List Principal)
    (hne : members ≠ []) (_hlen : members.length ≤ 5) :
    (∀ p, (p ∈ members ∨ p = author ∨ p = me) →
      ∃ ow, dictGet (create_overwrites base me dr author members) p = some ow ∧
        ow.send_messages = some true)
    ∧ (∀ p ow,
        dictGet (create_overwrites base me dr author members) p = some ow →
        (ow.send_messages = some true ↔ (p ∈ members ∨ p = author ∨ p = me)))
    ∧ (∀ p, (dictGet base p).isSome → ¬(p ∈ members ∨ p = author ∨ p = me) →
        ∃ ow,
          dictGet (create_overwrites base me dr author members) p = some ow ∧
          ow.send_messages = some false) := by
  refine ⟨?_, ?_, ?_⟩
  · intro p hp
    rw [dictGet_create_overwrites_nonempty base me dr author members hne p]
    by_cases ha : p = author
    · rw [if_pos ha]; exact ⟨readSendOverwrite, rfl, rfl⟩
    · rw [if_neg ha]
      by_cases hm : p ∈ members
      · rw [if_pos hm]; exact ⟨readSendOverwrite, rfl, rfl⟩
      · rw [if_neg hm]
        have hme : p = me := by
          rcases hp with h | h | h
          · exact absurd h hm
          · exact absurd h ha
          · exact h
        rw [if_pos hme]; exact ⟨MY_PERMS, rfl, rfl⟩
  · intro p ow how
    rw [dictGet_create_overwrites_nonempty base me dr author members hne p]
      at how
    by_cases ha : p = author
    · rw [if_pos ha] at how
      injection how with hww
      subst hww
      simp [readSendOverwrite, ha]
    · rw [if_neg ha] at how
      by_cases hm : p ∈ members
      · rw [if_pos hm] at how
        injection how with hww
        subst hww
        simp [readSendOverwrite, hm]
      · rw [if_neg hm] at how
        by_cases hme : p = me
        · rw [if_pos hme] at how
          injection how with hww
          subst hww
          simp [MY_PERMS, hme]
        · rw [if_neg hme, Option.map_eq_some'] at how
          obtain ⟨w, hw, rfl⟩ := how
          simp [ha, hm, hme]
  · intro p hbase hnot
    push_neg at hnot
    obtain ⟨hm, ha, hme⟩ := hnot
    rw [dictGet_create_overwrites_nonempty base me dr author members hne p,
      if_neg ha, if_neg hm, if_neg hme, dictGet_pre_scope, if_neg hme]
    by_cases hdr : p = dr
    · rw [if_pos hdr]
      exact ⟨_, rfl, rfl⟩
    · rw [if_neg hdr]
      obtain ⟨w, hw⟩ := Option.isSome_iff_exists.mp hbase
      rw [hw]
      exact ⟨_, rfl, rfl⟩

/-- Witness for C1 at a concrete request: one listed member, a distinct
initiator, an empty originating overwrite map. -/
theorem restricted_scope_send_exactly_witness :
    readSendOverwrite.send_messages = some true :=
  ((restricted_scope_send_exactly [] (Principal.member 0) (Principal.role 9)
      (Principal.member 1) [Principal.member 2] (by decide) (by decide)).2.1
    (Principal.member 2) readSendOverwrite (by decide)).mpr
    (Or.inl (by decide))

/-- C8 counterexample: listing the bot itself as a restricted participant
makes `create_channel` (line 141) overwrite the bot's full-control entry
with a bare read+send entry, so the initial Access Scope does not grant
the bot the full control tuple for every input. -/
theorem bot_listed_loses_full_control :
    dictGet (create_overwrites [] (Principal.member 0) (Principal.role 9)
        (Principal.member 1) [Principal.member 0]) (Principal.member 0)
      = some readSendOverwrite
    ∧ readSendOverwrite.manage_permissions ≠ some true := by decide

/-- C8 (amended): provided the bot is neither the initiating participant
nor listed among the restricted participants, the bot's entry carries the
full control tuple `MY_PERMS` in the initial Access Scope, and
unconditionally in the locked Access Scope. -/
theorem bot_full_control (base : Overwrites) (me dr author : Principal)
    (members : List Principal) (h1 : me ∉ members) (h2 : author ≠ me)
    (h3 : dr ≠ me) :
    dictGet (create_overwrites base me dr author members) me = some MY_PERMS
    ∧ dictGet (locked_overwrites dr me) me = some MY_PERMS := by
  constructor
  · by_cases hne : members = []
    · subst hne
      have hempty : create_overwrites base me dr author [] =
          dictSetdefault (dictSet base me MY_PERMS) dr readSendOverwrite := rfl
      rw [hempty, dictGet_pre_scope, if_pos rfl]
    · rw [dictGet_create_overwrites_nonempty base me dr author members hne me,
        if_neg (fun h => h2 h.symm), if_neg h1, if_pos rfl]
  · simp [locked_overwrites, dictGet_cons, h3]

/-- Witness for C8 (amended) at a concrete request. -/
theorem bot_full_control_witness :
    dictGet (create_overwrites [] (Principal.member 0) (Principal.role 9)
        (Principal.member 1) [Principal.member 2]) (Principal.member 0)
      = some MY_PERMS :=
  (bot_full_control [] (Principal.member 0) (Principal.role 9)
    (Principal.member 1) [Principal.member 2] (by decide) (by decide)
    (by decide)).1

/-- C9: with an empty restricted list, the computed Access Scope keeps
every principal of the originating overwrite map other than the bot
unchanged, installs `MY_PERMS` for the bot, and the only possible addition
is a default-role read+send entry, added exactly when no default-role
entry was already present. -/
theorem empty_members_frame (base : Overwrites) (me dr author : Principal) :
    dictGet (create_overwrites base me dr author []) me = some MY_PERMS
    ∧ (∀ p, p ≠ me → p ≠ dr →
        dictGet (create_overwrites base me dr author []) p = dictGet base p)
    ∧ (dr ≠ me → dictGet base dr = none →
        dictGet (create_overwrites base me dr author []) dr =
          some readSendOverwrite)
    ∧ (dr ≠ me → ∀ v, dictGet base dr = some v →
        dictGet (create_overwrites base me dr author []) dr = some v) := by
  have hempty : create_overwrites base me dr author [] =
      dictSetdefault (dictSet base me MY_PERMS) dr readSendOverwrite := rfl
  refine ⟨?_, ?_, ?_, ?_⟩
  · rw [hempty, dictGet_pre_scope, if_pos rfl]
  · intro p hme hdr
    rw [hempty, dictGet_pre_scope, if_neg hme, if_neg hdr]
  · intro hdrme hnone
    rw [hempty, dictGet_pre_scope, if_neg hdrme, if_pos rfl, hnone]
    rfl
  · intro hdrme v hv
    rw [hempty, dictGet_pre_scope, if_neg hdrme, if_pos rfl, hv]
    rfl

/-- Witness for C9 at a concrete request. -/
theorem empty_members_frame_witness :
    dictGet (create_overwrites [] (Principal.member 0) (Principal.role 9)
        (Principal.member 1) []) (Principal.member 0) = some MY_PERMS :=
  (empty_members_frame [] (Principal.member 0) (Principal.role 9)
    (Principal.member 1)).1

/-! ## Termination-watcher theorems (C2, C10) -/

theorem await_end_go_no_match (chanId botId timeoutSecs : Nat) :
    ∀ (events : List (Nat × Message)),
      (∀ e ∈ events,
        ¬(e.2.channelId = chanId ∧ is_bot_goodbye botId e.2 = true)) →
      ∀ remaining,
        (await_end_go chanId botId timeoutSecs remaining events).1 =
          EndReason.timeout := by
  intro events
  induction events with
  | nil => intro _ remaining; rfl
  | cons e rest ih =>
    intro h remaining
    obtain ⟨d, m⟩ := e
    by_cases ht : remaining ≤ d
    · simp [await_end_go, ht]
    · have hhead := h (d, m) (List.mem_cons_self _ _)
      by_cases hch : m.channelId = chanId
      · have hgb : is_bot_goodbye botId m = false := by
          cases hg : is_bot_goodbye botId m
          · rfl
          · exact absurd ⟨hch, hg⟩ hhead
        have htail := ih (fun e he => h e (List.mem_cons_of_mem _ he))
          timeoutSecs
        simpa [await_end_go, ht, hch, hgb] using htail
      · have htail := ih (fun e he => h e (List.mem_cons_of_mem _ he))
          (remaining - d)
        simpa [await_end_go, ht, hch] using htail

/-- C2: the Termination Watcher resolves with `timeout` when no message in
the channel ever satisfies the termination predicate (bot-authored, content
`is_goodbye`); it resolves `explicitSignal` immediately on a first matching
message delivered within the timeout; a non-matching in-channel message
delivered within the timeout merely re-arms the wait (the watcher continues
exactly as if started on the remaining stream); and it never resolves with
both reasons. -/
theorem await_end_resolution (chanId botId timeoutMinutes : Nat)
    (events : List (Nat × Message)) :
    ((await_end chanId botId timeoutMinutes events).1 =
        EndReason.explicitSignal ↔
      (await_end chanId botId timeoutMinutes events).1 ≠ EndReason.timeout)
    ∧ ((∀ e ∈ events,
          ¬(e.2.channelId = chanId ∧ is_bot_goodbye botId e.2 = true)) →
        (await_end chanId botId timeoutMinutes events).1 = EndReason.timeout)
    ∧ (∀ d m rest, d < timeoutMinutes * 60 → m.channelId = chanId →
        is_bot_goodbye botId m = true →
        await_end chanId botId timeoutMinutes ((d, m) :: rest) =
          (EndReason.explicitSignal, []))
    ∧ (∀ d m rest, d < timeoutMinutes * 60 → m.channelId = chanId →
        is_bot_goodbye botId m = false →
        await_end chanId botId timeoutMinutes ((d, m) :: rest) =
          await_end chanId botId timeoutMinutes rest) := by
  refine ⟨?_, ?_, ?_, ?_⟩
  · cases hr : (await_end chanId botId timeoutMinutes events).1 <;> simp
  · intro h
    exact await_end_go_no_match chanId botId _ events h _
  · intro d m rest hd hch hgb
    simp [await_end, await_end_go, Nat.not_le.mpr hd, hch, hgb]
  · intro d m rest hd hch hgb
    simp [await_end, await_end_go, Nat.not_le.mpr hd, hch, hgb]

/-- Witness for C2: a single non-matching message (wrong author), after
which the wait times out. -/
theorem await_end_resolution_witness :
    (await_end 1 2 5
      [(0, { channelId := 1, authorId := 3, content := "hello" })]).1 =
      EndReason.timeout :=
  (await_end_resolution 1 2 5
    [(0, { channelId := 1, authorId := 3, content := "hello" })]).2.1
    (by decide)

theorem await_end_go_shape (chanId botId timeoutSecs : Nat) :
    ∀ (events : List (Nat × Message)) (remaining : Nat),
      await_end_go chanId botId timeoutSecs remaining events =
          (EndReason.timeout, [goodbyeMessage chanId botId])
        ∨ await_end_go chanId botId timeoutSecs remaining events =
          (EndReason.explicitSignal, []) := by
  intro events
  induction events with
  | nil => intro remaining; exact Or.inl rfl
  | cons e rest ih =>
    intro remaining
    obtain ⟨d, m⟩ := e
    by_cases ht : remaining ≤ d
    · left; simp [await_end_go, ht]
    · by_cases hch : m.channelId = chanId
      · by_cases hgb : is_bot_goodbye botId m = true
        · right; simp [await_end_go, ht, hch, hgb]
        · rw [Bool.not_eq_true] at hgb
          have htail := ih timeoutSecs
          simpa [await_end_go, ht, hch, hgb] using htail
      · have htail := ih (remaining - d)
        simpa [await_end_go, ht, hch] using htail

theorem is_goodbye_Goodbye : is_goodbye "Goodbye." = true := by decide

theorem is_bot_goodbye_goodbyeMessage (chanId botId : Nat) :
    is_bot_goodbye botId (goodbyeMessage chanId botId) = true := by
  simp [is_bot_goodbye, goodbyeMessage, is_goodbye_Goodbye]

/-- C10: when the watcher resolves with `timeout` it has sent exactly the
one `'Goodbye.'` termination message into the channel, and when it
resolves with `explicitSignal` it has sent nothing; the sent message
satisfies the Archive Writer's exclusion predicate, so appending it to any
history leaves the archive contents unchanged. -/
theorem await_end_timeout_goodbye (chanId botId timeoutMinutes : Nat)
    (events : List (Nat × Message)) :
    ((await_end chanId botId timeoutMinutes events).1 = EndReason.timeout →
      (await_end chanId botId timeoutMinutes events).2 =
        [goodbyeMessage chanId botId])
    ∧ ((await_end chanId botId timeoutMinutes events).1 =
          EndReason.explicitSignal →
        (await_end chanId botId timeoutMinutes events).2 = [])
    ∧ is_bot_goodbye botId (goodbyeMessage chanId botId) = true
    ∧ (∀ history, save_messages_content botId
          (history ++ [goodbyeMessage chanId botId]) =
        save_messages_content botId history) := by
  refine ⟨?_, ?_, is_bot_goodbye_goodbyeMessage chanId botId, ?_⟩
  · intro h
    rw [await_end] at h ⊢
    rcases await_end_go_shape chanId botId (timeoutMinutes * 60) events
        (timeoutMinutes * 60) with hs | hs
    · rw [hs]
    · rw [hs] at h
      simp at h
  · intro h
    rw [await_end] at h ⊢
    rcases await_end_go_shape chanId botId (timeoutMinutes * 60) events
        (timeoutMinutes * 60) with hs | hs
    · rw [hs] at h
      simp at h
    · rw [hs]
  · intro history
    simp only [save_messages_content, List.filterMap_append]
    rw [show List.filterMap (fun m => if is_bot_goodbye botId m then none
          else some (message_record m)) [goodbyeMessage chanId botId] = []
        from by simp [is_bot_goodbye_goodbyeMessage]]
    rw [List.append_nil]

/-- Witness for C10: with no inbound messages the watcher times out and
has sent the `'Goodbye.'` message. -/
theorem await_end_timeout_goodbye_witness :
    (await_end 1 2 5 []).2 = [goodbyeMessage 1 2] :=
  (await_end_timeout_goodbye 1 2 5 []).1 rfl

/-! ## Archive-writer theorem (C3) -/

theorem filterMap_record_eq (botId : Nat) (history : List Message) :
    history.filterMap (fun m => if is_bot_goodbye botId m then none
        else some (message_record m)) =
      (genuine_messages botId history).map message_record := by
  induction history with
  | nil => rfl
  | cons m t ih =>
    by_cases h : is_bot_goodbye botId m <;>
      simp [genuine_messages, h, ih, List.filterMap_cons]

/-- C3: for every channel history, the Archive Writer's file contents are
exactly one record per genuine (non-synthetic-termination) message, in
history (oldest-first) order, followed by the single terminator line
`SEPARATOR ++ "--"`; no record is produced for the synthetic termination
message. -/
theorem save_messages_records (botId : Nat) (history : List Message) :
    save_messages_content botId history =
      String.join ((genuine_messages botId history).map message_record) ++
        (SEPARATOR ++ "--\n")
    ∧ ((genuine_messages botId history).map message_record).length =
        (genuine_messages botId history).length
    ∧ ∀ m ∈ history, is_bot_goodbye botId m = true →
        m ∉ genuine_messages botId history := by
  refine ⟨?_, by simp, ?_⟩
  · unfold save_messages_content
    rw [filterMap_record_eq]
  · intro m _ hm hmem
    unfold genuine_messages at hmem
    have hp := List.of_mem_filter hmem
    rw [hm] at hp
    simp at hp

/-- Witness for C3 at a concrete two-message history containing the
synthetic termination message. -/
theorem save_messages_records_witness :
    save_messages_content 2 [goodbyeMessage 1 2] =
      String.join ((genuine_messages 2 [goodbyeMessage 1 2]).map
          message_record) ++
        (SEPARATOR ++ "--\n") :=
  (save_messages_records 2 [goodbyeMessage 1 2]).1

/-! ## Conclusion-sequence theorems (C4, C5, C6) -/

/-- C4 counterexample: with a configured destination that accepts the
archive, the conclusion trace deletes the channel (third event, inside the
first three) strictly before the delivery attempt (after the first three),
so the channel is deleted before delivery is attempted. -/
theorem delete_precedes_delivery :
    (split_conclusion_trace
        { hasDest := true, destForbidden := false, webhookFails := false,
          ctxForbidden := false, elapsedSeconds := 0 }).1 =
      [Ev.lockChannel, Ev.saveMessages, Ev.deleteChannel, Ev.destSendOk,
        Ev.unlink]
    ∧ Ev.deleteChannel ∈ ((split_conclusion_trace
        { hasDest := true, destForbidden := false, webhookFails := false,
          ctxForbidden := false, elapsedSeconds := 0 }).1.take 3)
    ∧ Ev.destSendOk ∉ ((split_conclusion_trace
        { hasDest := true, destForbidden := false, webhookFails := false,
          ctxForbidden := false, elapsedSeconds := 0 }).1.take 3) := by
  decide

/-- C4 (amended): in every conclusion run, archival of the history
completes first, then the channel is deleted, and only after the deletion
are delivery (and unlink) steps performed; deletion always precedes every
delivery attempt. -/
theorem archive_then_delete_then_deliver (env : ConcludeEnv) :
    (split_conclusion_trace env).1.take 3 =
      [Ev.lockChannel, Ev.saveMessages, Ev.deleteChannel]
    ∧ Ev.deleteChannel ∉ (split_conclusion_trace env).1.drop 3
    ∧ Ev.saveMessages ∉ (split_conclusion_trace env).1.drop 3 := by
  obtain ⟨hasDest, destForbidden, webhookFails, ctxForbidden, elapsed⟩ := env
  cases hasDest <;> cases destForbidden <;> cases webhookFails <;>
    cases ctxForbidden <;>
    simp only [split_conclusion_trace, conclude_trace, conclude_fallback] <;>
    split <;> simp <;> split <;> simp

/-- Witness for C4 (amended) at a concrete environment. -/
theorem archive_then_delete_then_deliver_witness :
    (split_conclusion_trace
        { hasDest := false, destForbidden := false, webhookFails := false,
          ctxForbidden := false, elapsedSeconds := 0 }).1.take 3 =
      [Ev.lockChannel, Ev.saveMessages, Ev.deleteChannel] :=
  (archive_then_delete_then_deliver
    { hasDest := false, destForbidden := false, webhookFails := false,
      ctxForbidden := false, elapsedSeconds := 0 }).1

/-- C5: whenever `conclude` runs to completion (delivery succeeded
somewhere, or every caught denial was swallowed), its final action is the
`os.unlink` of the local archive artifact, so the artifact no longer
exists locally after the flow completes. -/
theorem conclude_removes_artifact (env : ConcludeEnv)
    (h : (conclude_trace env).2 = true) :
    (conclude_trace env).1.getLast? = some Ev.unlink := by
  obtain ⟨hasDest, destForbidden, webhookFails, ctxForbidden, elapsed⟩ := env
  cases hasDest <;> cases destForbidden <;> cases webhookFails <;>
    cases ctxForbidden <;>
    simp only [conclude_trace, conclude_fallback] at h ⊢ <;>
    first
      | decide
      | (split_ifs at h ⊢ <;> decide)

/-- Witness for C5 at a concrete environment (destination accepts). -/
theorem conclude_removes_artifact_witness :
    (conclude_trace
        { hasDest := true, destForbidden := false, webhookFails := false,
          ctxForbidden := false, elapsedSeconds := 0 }).1.getLast? =
      some Ev.unlink :=
  conclude_removes_artifact
    { hasDest := true, destForbidden := false, webhookFails := false,
      ctxForbidden := false, elapsedSeconds := 0 } (by decide)

/-- C6 (code bug): `conclude` compares the `seconds` component of the
elapsed `timedelta` (which wraps every 24 hours), not the total elapsed
duration.  At elapsed exactly 86400 s (24 h) — not under 10 minutes — the
denied-destination fallback still goes to the interaction webhook instead
of the originating channel. -/
theorem conclude_elapsed_wraps_after_a_day :
    (conclude_trace
        { hasDest := true, destForbidden := true, webhookFails := false,
          ctxForbidden := false, elapsedSeconds := 86400 }).1 =
      [Ev.deleteChannel, Ev.destSendForbidden, Ev.webhookSendOk, Ev.unlink]
    ∧ ¬(86400 < 10 * 60) := by decide

/-! ## Channel-deletion theorems (C7) -/

/-- C7 counterexample: after a successful deletion, a second invocation of
the (unguarded) deletion step propagates the platform's not-found error —
the retry does raise. -/
theorem delete_retry_raises :
    delete_twice = Except.error DeleteError.notFound := rfl

/-- C7 (amended): channel deletion is not idempotent in the code — the
first call succeeds and removes the channel, and a second call then fails
with `NotFound`, for which `conclude` has no handler. -/
theorem delete_not_idempotent :
    conclude_delete true = Except.ok false
    ∧ delete_twice = Except.error DeleteError.notFound := ⟨rfl, rfl⟩

end ConvoSplit
